import Mathlib

/-!
Verification of the VentasDigitalesWs room-broadcast core

The repository is a set of evolving variants of a socket.io room-based event
relay (files `src/app.js`, `src/unnamed/part_000`, `src/unnamed/part_001`,
each containing one or more server variants separated by markers).

This file gives a shallow embedding of the room registry, the user index and
the inbound event handlers of every variant, and proves or refutes the
specification claims about them.

Modelling conventions:
* JS `Map` objects (insertion ordered, unique keys) are modelled as
  association lists `List (Nat × List Nat)`; room names, socket ids and user
  ids are JS strings used only for equality, modelled as `Nat` ids.
* JS `Set` objects (insertion ordered, no duplicates) are modelled as
  `List Nat` with an `add` that appends only when absent and a `delete` that
  erases; reachable sets are `Nodup`.
* JS field values are modelled by `JsVal` with JS truthiness, so that a
  missing field (`undefined`) and falsiness checks such as
  `data.venta_id && data.estado_nuevo` are faithful.
* `io.to(room).emit(ev, data)` is modelled by `ioTo`, which delivers the
  payload to every socket in the adapter's member set for the room.
-/

namespace VentasWs

/-- A JS value as far as the handlers inspect one: fields may be absent
(`undef`), `null`, numbers or strings. -/
inductive JsVal
  | undef
  | null
  | num (n : Nat)
  | str (s : String)
deriving DecidableEq, Repr

/-- JS truthiness for the values of `JsVal` (`undefined`, `null`, `0` and
`""` are falsy). -/
def truthy : JsVal → Bool
  | .undef => false
  | .null => false
  | .num n => n != 0
  | .str s => s != ""

/-- The payload object of the domain events. A field a client did not send is
`undef`; the optional explicit `room` property (read only by the
`part_000` first variant) is modelled as an `Option Nat` room name. -/
structure Payload where
  venta_id : JsVal := .undef
  estado_nuevo : JsVal := .undef
  comentario : JsVal := .undef
  room : Option Nat := none
deriving DecidableEq, Repr

/-- Association-list model of a JS `Map` from string keys to `Set`s, with
room names / user ids / socket ids modelled as `Nat`. -/
abbrev NMap := List (Nat × List Nat)

/-- Models `m.has(k)`. -/
def mapHas (m : NMap) (k : Nat) : Bool :=
  m.any (fun e => e.1 == k)

/-- Models `m.get(k)` (`none` models `undefined`). -/
def mapGet (m : NMap) (k : Nat) : Option (List Nat) :=
  (m.find? (fun e => e.1 == k)).map (·.2)

/-- Models `m.set(k, v)`: replaces in place when the key exists, else appends
(JS `Map` preserves insertion order). -/
def mapSet (m : NMap) (k : Nat) (v : List Nat) : NMap :=
  if mapHas m k then m.map (fun e => if e.1 == k then (k, v) else e)
  else m ++ [(k, v)]

/-- Models `m.delete(k)`. -/
def mapDelete (m : NMap) (k : Nat) : NMap :=
  m.filter (fun e => e.1 != k)

/-- In-place mutation of the set stored under `k`, as performed by
`m.get(k).add(x)` / `m.get(k).delete(x)` on the shared `Set` object. -/
def mapAdjust (m : NMap) (k : Nat) (f : List Nat → List Nat) : NMap :=
  m.map (fun e => if e.1 == k then (e.1, f e.2) else e)

/-- Models `s.add(x)` on a JS `Set`: a no-op when present, else appended. -/
def setAdd (s : List Nat) (x : Nat) : List Nat :=
  if x ∈ s then s else s ++ [x]

/-- Models `io.to(room).emit(ev, data)`: delivers `data` to every socket in the
adapter's membership set for `room`, in order; `io.to` applied to an absent
room value reaches no socket. -/
def ioTo (adapter : NMap) (room? : Option Nat) (d : Payload) :
    List (Nat × Payload) :=
  match room? with
  | none => []
  | some r => ((mapGet adapter r).getD []).map (fun c => (c, d))

/-! Section: Room registry operations

`joinRoom` is the registry update common to every variant that keeps a
`rooms` map (`app.js` both variants, `part_000` first and cluster-adapter
variants, `part_001`):

```js
if (!rooms.has(room)) { rooms.set(room, new Set()); }
rooms.get(room).add(socket.id);
```
-/

/-- The `joinRoom` registry update (see above). -/
def joinRoom (m : NMap) (room sid : Nat) : NMap :=
  let m1 := if mapHas m room then m else mapSet m room []
  mapAdjust m1 room (fun s => setAdd s sid)

/-- The full-scan disconnect cleanup of the winston-cluster variants
(`app.js` lines 218–228, `part_001` lines 145–155), the `part_000` first
variant (lines 143–154) and the cluster-adapter variant (lines 391–399):

```js
for (const [room, clients] of rooms.entries()) {
  if (clients.has(socket.id)) {
    clients.delete(socket.id);
    if (clients.size === 0) { rooms.delete(room); }
  }
}
```
-/
def disconnectScan (m : NMap) (sid : Nat) : NMap :=
  m.filterMap (fun e =>
    if sid ∈ e.2 then
      if (e.2.erase sid).isEmpty then none else some (e.1, e.2.erase sid)
    else some e)

/-- The `disconnecting` handler of the second `app.js` variant
(lines 356–364): for every room in `socket.rooms` (other than the socket's
own id), the socket id is deleted from the registry set, with no
empty-room deletion:

```js
const userRooms = Array.from(socket.rooms).filter(r => r !== socket.id);
userRooms.forEach(room => {
  if (rooms.has(room)) { rooms.get(room).delete(socket.id); }
});
```
-/
def disconnecting (m : NMap) (srooms : List Nat) (sid : Nat) : NMap :=
  srooms.foldl
    (fun acc room =>
      if mapHas acc room then mapAdjust acc room (fun s => s.erase sid)
      else acc)
    m

/-- The `disconnect` handler of the second `app.js` variant (lines 367–380):
the scan `break`s after the first room found to contain the socket id:

```js
for (const [room, clients] of rooms.entries()) {
  if (clients.has(socket.id)) {
    clients.delete(socket.id);
    if (clients.size === 0) { rooms.delete(room); }
    break;
  }
}
```
-/
def disconnectBreak (m : NMap) (sid : Nat) : NMap :=
  match m with
  | [] => []
  | (room, clients) :: rest =>
    if sid ∈ clients then
      if (clients.erase sid).isEmpty then rest
      else (room, clients.erase sid) :: rest
    else (room, clients) :: disconnectBreak rest sid

/-- The complete disconnect processing of the second `app.js` variant:
socket.io fires `disconnecting` (while `socket.rooms` is still populated)
and then `disconnect` (after the socket left its rooms). -/
def disconnectFullB (m : NMap) (srooms : List Nat) (sid : Nat) : NMap :=
  disconnectBreak (disconnecting m srooms sid) sid

/-! Section: Event handlers, one `def` per source handler -/

/-- The `actualizarEstadoVenta` handler of the `part_000` first variant
(lines 112–124): validates `venta_id` and `estado_nuevo` by truthiness and
emits to the explicit `data.room`; on failure only logs. -/
def handleSaleExplicit (adapter : NMap) (d : Payload) : List (Nat × Payload) :=
  if truthy d.venta_id && truthy d.estado_nuevo then ioTo adapter d.room d
  else []

/-- The `nuevoComentario` handler of the `part_000` first variant
(lines 126–137): validates `venta_id` and `estado_nuevo` (not `comentario`)
and emits to the explicit `data.room`. -/
def handleCommentExplicit (adapter : NMap) (d : Payload) :
    List (Nat × Payload) :=
  if truthy d.venta_id && truthy d.estado_nuevo then ioTo adapter d.room d
  else []

/-- The `actualizarEstadoVenta` handler of the second `app.js` variant
(lines 327–339): the target room is inferred as
`Array.from(socket.rooms).find(r => r !== socket.id)`; `srooms` is the
list of rooms the socket has joined (its own-id room excluded), so the
find is `srooms.head?`. With no room the event is logged and dropped;
otherwise `venta_id` and `estado_nuevo` are validated by truthiness. -/
def handleSaleInferred (adapter : NMap) (srooms : List Nat) (d : Payload) :
    List (Nat × Payload) :=
  match srooms.head? with
  | none => []
  | some room =>
    if truthy d.venta_id && truthy d.estado_nuevo then ioTo adapter (some room) d
    else []

/-- The `nuevoComentario` handler of the second `app.js` variant
(lines 342–354): same room inference, but validates `venta_id` and
`comentario`. -/
def handleCommentInferred (adapter : NMap) (srooms : List Nat) (d : Payload) :
    List (Nat × Payload) :=
  match srooms.head? with
  | none => []
  | some room =>
    if truthy d.venta_id && truthy d.comentario then ioTo adapter (some room) d
    else []

/-- One `actualizarEstadoVenta` listener installed inside `joinRoom` by the
nested-handler variants (`app.js` lines 178–188, `part_001` lines 105–115,
`part_000` second variant lines 240–251), with the `room` variable captured
at join time. Returns the broadcast it performs (room and payload), or
`none` when validation throws/logs (`!data?.venta_id || !data?.estado_nuevo`). -/
def saleListenerNested (room : Nat) (d : Payload) : Option (Nat × Payload) :=
  if !truthy d.venta_id || !truthy d.estado_nuevo then none
  else some (room, d)

/-- One `nuevoComentario` listener installed inside `joinRoom` by the
nested-handler variants (`app.js` lines 190–200, `part_001` lines 117–127,
`part_000` second variant lines 253–264): validates `venta_id` and
`estado_nuevo` (not `comentario`). -/
def commentListenerNested (room : Nat) (d : Payload) : Option (Nat × Payload) :=
  if !truthy d.venta_id || !truthy d.estado_nuevo then none
  else some (room, d)

/-- Deliveries performed by one nested `actualizarEstadoVenta` listener:
the broadcast of `saleListenerNested` resolved through the adapter. -/
def handleSaleNested (adapter : NMap) (room : Nat) (d : Payload) :
    List (Nat × Payload) :=
  match saleListenerNested room d with
  | none => []
  | some (r, d') => ioTo adapter (some r) d'

/-- Deliveries performed by one nested `nuevoComentario` listener. -/
def handleCommentNested (adapter : NMap) (room : Nat) (d : Payload) :
    List (Nat × Payload) :=
  match commentListenerNested room d with
  | none => []
  | some (r, d') => ioTo adapter (some r) d'

/-- The `actualizarEstadoVenta` handler of the `part_000` cluster-adapter
variant (lines 358–361): `socket.on('actualizarEstadoVenta', (data, room) =>
{ io.to(room).emit('actualizarEstadoVenta', data); ... })` — the payload is
broadcast with no validation whatsoever. -/
def handleSaleClusterAdapter (adapter : NMap) (d : Payload) (room : Nat) :
    List (Nat × Payload) :=
  ioTo adapter (some room) d

/-- The `nuevoComentario` handler of the `part_000` cluster-adapter variant
(lines 364–367): broadcast with no validation. -/
def handleCommentClusterAdapter (adapter : NMap) (d : Payload) (room : Nat) :
    List (Nat × Payload) :=
  ioTo adapter (some room) d

/-! Section: Listener accumulation in the nested-handler variants -/

/-- Per-connection state of a nested-handler variant: the shared room
registry plus the listener list of this connection — each `joinRoom`
call appends, for each of the two event names, one listener whose captured
room is the room just joined. -/
structure NestedConnState where
  registry : NMap := []
  listeners : List Nat := []
deriving DecidableEq, Repr

/-- The `joinRoom` handler of the nested-handler variants: updates the
registry and installs one more listener (per event name) capturing `room`. -/
def joinRoomNested (st : NestedConnState) (room sid : Nat) : NestedConnState :=
  { registry := joinRoom st.registry room sid
    listeners := st.listeners ++ [room] }

/-- Issuing `joinRoom` for each room of `rs` in order. -/
def joinAllNested (st : NestedConnState) (rs : List Nat) (sid : Nat) :
    NestedConnState :=
  rs.foldl (fun s r => joinRoomNested s r sid) st

/-- One inbound `actualizarEstadoVenta` event dispatched to every installed
listener of the connection: each listener runs once and performs its own
broadcast (or none). -/
def dispatchSaleNested (listeners : List Nat) (d : Payload) :
    List (Nat × Payload) :=
  listeners.filterMap (fun room => saleListenerNested room d)

/-! Section: User index (cluster-adapter variant, `part_000` lines 334–339 and
382–388): a regular `Map` from user id to the `Set` of its socket ids. -/

/-- Connection-time registration:
```js
if (!userSockets.has(userId)) { userSockets.set(userId, new Set()); }
userSockets.get(userId).add(socket.id);
```
-/
def registerUser (ui : NMap) (u sid : Nat) : NMap :=
  let ui1 := if mapHas ui u then ui else mapSet ui u []
  mapAdjust ui1 u (fun s => setAdd s sid)

/-- Disconnect-time eviction:
```js
if (userId && userSockets.has(userId)) {
  const sockets = userSockets.get(userId);
  sockets.delete(socket.id);
  if (sockets.size === 0) { userSockets.delete(userId); }
}
```
-/
def unregisterUser (ui : NMap) (u sid : Nat) : NMap :=
  if mapHas ui u then
    if ((mapGet (mapAdjust ui u (fun s => s.erase sid)) u).getD []).isEmpty then
      mapDelete (mapAdjust ui u (fun s => s.erase sid)) u
    else mapAdjust ui u (fun s => s.erase sid)
  else ui

/-! Section: Operation sequences -/

/-- A registry-mutating operation of the full-scan variants: a `joinRoom`
or a disconnect (there is no separate leave; leaving happens only through
disconnect cleanup). -/
inductive Op
  | join (room sid : Nat)
  | disc (sid : Nat)
deriving DecidableEq, Repr

/-- Effect of one operation on the registry in the full-scan variants. -/
def applyOp (m : NMap) : Op → NMap
  | .join r c => joinRoom m r c
  | .disc c => disconnectScan m c

/-- Running a sequence of operations from the initial empty registry. -/
def runOps (ops : List Op) : NMap :=
  ops.foldl applyOp []

/-- A user-index-mutating operation of the cluster-adapter variant: a
connection or a disconnect, each carrying the optional handshake user id. -/
inductive UOp
  | conn (uid : Option Nat) (sid : Nat)
  | disc (uid : Option Nat) (sid : Nat)
deriving DecidableEq, Repr

/-- Effect of one lifecycle operation on the user index (`if (userId)`
guards both source blocks). -/
def applyUOp (ui : NMap) : UOp → NMap
  | .conn none _ => ui
  | .conn (some u) sid => registerUser ui u sid
  | .disc none _ => ui
  | .disc (some u) sid => unregisterUser ui u sid

/-- Running a sequence of lifecycle operations from the empty user index. -/
def runUOps (ops : List UOp) : NMap :=
  ops.foldl applyUOp []

/-- No entry of the map holds an empty set (Boolean form). -/
def noEmptyEntries (m : NMap) : Bool :=
  m.all (fun e => !e.2.isEmpty)

/-- No entry of the map contains the socket id `c` (Boolean form). -/
def memberFree (m : NMap) (c : Nat) : Bool :=
  m.all (fun e => !(decide (c ∈ e.2)))

end VentasWs

namespace VentasWs

/-- Well-formedness of a reachable JS `Map` of `Set`s used as an index:
keys are unique (JS `Map` semantics) and no stored set is empty. -/
def GoodIndex (m : NMap) : Prop :=
  (m.map Prod.fst).Nodup ∧ ∀ e ∈ m, e.2 ≠ []

/-! Section: C9: WeakMap user registration in the clustered winston variants

`app.js` line 64 / `part_001` line 65 declare `userSockets = new WeakMap()`,
and the connection handler (`app.js` lines 160–164, `part_001` lines 86–90)
runs, for an identified connection,

```js
const userSocketSet = userSockets.get(userId) || new Set();
userSocketSet.add(socket.id);
userSockets.set(userId, userSocketSet);
```

before `socket.on('joinRoom', ...)` and `socket.on('disconnect', ...)` are
registered. Per ECMA-262, a `WeakMap` key must be an object:
`WeakMap.prototype.get` on a primitive key merely returns `undefined`, but
`WeakMap.prototype.set` throws a `TypeError`. A handshake-query `userId` is
always a string, so the `set` call throws and the rest of the connection
handler never runs. -/

/-- A JS value used as a `WeakMap` key: an object (identified by identity),
or a primitive such as the handshake-query string `userId`. -/
inductive WMKey
  | objKey (i : Nat)
  | primKey (s : String)
deriving DecidableEq, Repr

/-- A `WeakMap` keyed by object identity. -/
abbrev WeakMap := List (Nat × List Nat)

/-- Models `WeakMap.prototype.get`: returns `undefined` (here `none`) for a
primitive key — a primitive can never be a key of any `WeakMap`. -/
def wmGet (wm : WeakMap) (k : WMKey) : Option (List Nat) :=
  match k with
  | .objKey i => mapGet wm i
  | .primKey _ => none

/-- Models `WeakMap.prototype.set`: throws `TypeError` on a primitive key
(ECMA-262: "Invalid value used as weak map key"). -/
def wmSet (wm : WeakMap) (k : WMKey) (v : List Nat) :
    Except String WeakMap :=
  match k with
  | .objKey i => .ok (mapSet wm i v)
  | .primKey _ => .error "TypeError"

/-- Connection-handler state of a clustered winston variant worker: the
`userSockets` weak map, plus whether this connection's `joinRoom` and
`disconnect` listeners got installed. -/
structure ConnState where
  userSockets : WeakMap := []
  joinRoomInstalled : Bool := false
  disconnectInstalled : Bool := false
deriving DecidableEq, Repr

/-- The connection handler of the clustered winston variants, up to the
listener registrations: for an identified connection it performs the
`get`/`add`/`set` sequence on the `WeakMap` (the query `userId` being a
string, i.e. a primitive key) and only then would install the `joinRoom`
and `disconnect` listeners; an exception aborts the handler before any
of them is installed. -/
def connectionClustered (sid : Nat) (userIdQuery : Option String)
    (st : ConnState) : Except String ConnState :=
  match userIdQuery with
  | some u => do
    let s := (wmGet st.userSockets (.primKey u)).getD []
    let ws ← wmSet st.userSockets (.primKey u) (setAdd s sid)
    pure { st with
      userSockets := ws
      joinRoomInstalled := true
      disconnectInstalled := true }
  | none =>
    pure { st with joinRoomInstalled := true, disconnectInstalled := true }

/-! Section: Basic lemmas about the JS map/set model -/

theorem setAdd_ne_nil (s : List Nat) (x : Nat) : setAdd s x ≠ [] := by
  unfold setAdd
  split
  · exact List.ne_nil_of_mem ‹x ∈ s›
  · simp

theorem joinRoom_def (m : NMap) (r c : Nat) :
    joinRoom m r c =
      mapAdjust (if mapHas m r then m else mapSet m r []) r
        (fun s => setAdd s c) := rfl

theorem mapHas_iff {m : NMap} {k : Nat} :
    mapHas m k = true ↔ ∃ e ∈ m, e.1 = k := by
  simp [mapHas, List.any_eq_true]

theorem noEmptyEntries_iff {m : NMap} :
    noEmptyEntries m = true ↔ ∀ e ∈ m, e.2 ≠ [] := by
  simp [noEmptyEntries, List.all_eq_true, List.isEmpty_iff]

theorem memberFree_iff {m : NMap} {c : Nat} :
    memberFree m c = true ↔ ∀ e ∈ m, c ∉ e.2 := by
  simp [memberFree, List.all_eq_true]

/-- Entries produced by `mapAdjust`: the adjusted version of a matching
entry, or an untouched non-matching entry. -/
theorem mem_mapAdjust {m : NMap} {k : Nat} {f : List Nat → List Nat}
    {e' : Nat × List Nat} (h : e' ∈ mapAdjust m k f) :
    ∃ e ∈ m, (e.1 = k ∧ e' = (e.1, f e.2)) ∨ (e.1 ≠ k ∧ e' = e) := by
  rcases List.mem_map.1 h with ⟨e, he, heq⟩
  refine ⟨e, he, ?_⟩
  by_cases hk : e.1 = k
  · exact Or.inl ⟨hk, by rw [← heq]; simp [hk]⟩
  · exact Or.inr ⟨hk, by rw [← heq]; simp [hk]⟩

/-! Section: C2: empty-room eviction -/

theorem noEmpty_joinRoom {m : NMap} (h : ∀ e ∈ m, e.2 ≠ []) (r c : Nat) :
    ∀ e ∈ joinRoom m r c, e.2 ≠ [] := by
  intro e' he'
  rw [joinRoom_def] at he'
  rcases mem_mapAdjust he' with ⟨e, he, ⟨_, heq⟩ | ⟨hne, heq⟩⟩
  · rw [heq]; exact setAdd_ne_nil e.2 c
  · subst heq
    revert he
    split
    · intro he; exact h e' he
    · intro he
      unfold mapSet at he
      rw [if_neg (by assumption)] at he
      rcases List.mem_append.1 he with he | he
      · exact h e' he
      · simp only [List.mem_singleton] at he
        exact absurd (by rw [he]) hne

theorem noEmpty_disconnectScan {m : NMap} (h : ∀ e ∈ m, e.2 ≠ []) (c : Nat) :
    ∀ e ∈ disconnectScan m c, e.2 ≠ [] := by
  intro e' he'
  rcases List.mem_filterMap.1 he' with ⟨e, he, heq⟩
  by_cases hc : c ∈ e.2
  · rw [if_pos hc] at heq
    split at heq
    · exact absurd heq (by simp)
    · rename_i hemp
      injection heq with heq
      rw [← heq]
      simpa [List.isEmpty_iff] using hemp
  · rw [if_neg hc] at heq
    injection heq with heq
    rw [← heq]
    exact h e he

theorem noEmpty_runOps_aux (ops : List Op) :
    ∀ m, (∀ e ∈ m, e.2 ≠ []) → ∀ e ∈ ops.foldl applyOp m, e.2 ≠ [] := by
  induction ops with
  | nil => intro m h; simpa using h
  | cons op rest ih =>
    intro m h
    simp only [List.foldl_cons]
    apply ih
    cases op with
    | join r c => exact noEmpty_joinRoom h r c
    | disc c => exact noEmpty_disconnectScan h c

/-- C2, counterexample: The claim quantifies over every variant's
mutating operations, but in the second `app.js` variant the `disconnecting`
handler (lines 356–364) empties a room's member set without deleting the
entry, and the following `disconnect` scan (lines 367–380) no longer finds
the id, so the empty entry persists: after `joinRoom(room 1, socket 5)`
and socket 5's disconnect processing, the registry still holds room 1 with
an empty member set. -/
theorem C2_counterexample :
    disconnectFullB (joinRoom [] 1 5) [1] 5 = [(1, [])] ∧
    noEmptyEntries (disconnectFullB (joinRoom [] 1 5) [1] 5) = false := by
  decide

/-- C2, amended: In the variants whose disconnect cleanup is the
full scan that deletes emptied rooms (both winston-cluster variants, the
`part_000` first variant and the cluster-adapter variant), every sequence
of `joinRoom` and disconnect operations starting from the empty registry
leaves no entry with an empty member set. -/
theorem C2_registry_never_empty (ops : List Op) :
    noEmptyEntries (runOps ops) = true := by
  rw [noEmptyEntries_iff]
  exact noEmpty_runOps_aux ops [] (by simp)

/-! Section: C3: disconnect removes the id from every room -/

/-- Applying `disconnectScan` leaves no room containing the disconnected id
(member sets of reachable registries are `Nodup`, as JS `Set`s are). -/
theorem memberFree_disconnectScan {m : NMap} (hwf : ∀ e ∈ m, e.2.Nodup)
    (c : Nat) : ∀ e ∈ disconnectScan m c, c ∉ e.2 := by
  intro e' he'
  rcases List.mem_filterMap.1 he' with ⟨e, he, heq⟩
  by_cases hc : c ∈ e.2
  · rw [if_pos hc] at heq
    split at heq
    · exact absurd heq (by simp)
    · injection heq with heq
      rw [← heq]
      exact (hwf e he).not_mem_erase
  · rw [if_neg hc] at heq
    injection heq with heq
    rw [← heq]
    exact hc

/-- Unfolding of one step of the `disconnecting` fold. -/
theorem disconnecting_cons (m : NMap) (r : Nat) (rest : List Nat) (c : Nat) :
    disconnecting m (r :: rest) c =
      disconnecting
        (if mapHas m r then mapAdjust m r (fun s => s.erase c) else m)
        rest c := rfl

/-- Entry provenance under the `disconnecting` fold: every entry of the
result refines an entry of the input with the same key and a sub-member
set. -/
theorem disconnecting_provenance (srooms : List Nat) :
    ∀ (m : NMap) (c : Nat), ∀ e' ∈ disconnecting m srooms c,
      ∃ e ∈ m, e'.1 = e.1 ∧ e'.2 ⊆ e.2 := by
  induction srooms with
  | nil =>
    intro m c e' he'
    exact ⟨e', he', rfl, fun _ h => h⟩
  | cons r rest ih =>
    intro m c e' he'
    rw [disconnecting_cons] at he'
    have hstep := ih (if mapHas m r then mapAdjust m r (fun s => s.erase c)
      else m) c e' he'
    rcases hstep with ⟨e, he, hk, hs⟩
    revert he
    split
    · intro he
      rcases mem_mapAdjust he with ⟨e0, he0, ⟨_, heq⟩ | ⟨_, heq⟩⟩
      · refine ⟨e0, he0, ?_, ?_⟩
        · rw [hk, heq]
        · rw [heq] at hs
          exact fun x hx => List.erase_subset c e0.2 (hs hx)
      · exact ⟨e0, he0, by rw [hk, heq], by rw [heq] at hs; exact hs⟩
    · intro he
      exact ⟨e, he, hk, hs⟩

/-- The `disconnecting` fold preserves `Nodup` member sets. -/
theorem disconnecting_nodup (srooms : List Nat) :
    ∀ (m : NMap) (c : Nat), (∀ e ∈ m, e.2.Nodup) →
      ∀ e ∈ disconnecting m srooms c, e.2.Nodup := by
  induction srooms with
  | nil => intro m c h; simpa [disconnecting] using h
  | cons r rest ih =>
    intro m c h
    rw [disconnecting_cons]
    apply ih
    intro e he
    revert he
    split
    · intro he
      rcases mem_mapAdjust he with ⟨e0, he0, ⟨_, heq⟩ | ⟨_, heq⟩⟩
      · rw [heq]; exact (h e0 he0).erase c
      · rw [heq]; exact h e0 he0
    · intro he; exact h e he

/-- After the second `app.js` variant's `disconnecting` handler, no room
whose name lies in `socket.rooms` still contains the id — hence with the
membership-sync property that `joinRoom` maintains (a registry room holds
`c` only if the socket joined it), no room at all contains the id. -/
theorem disconnecting_removes (srooms : List Nat) :
    ∀ (m : NMap) (c : Nat), (∀ e ∈ m, e.2.Nodup) →
      (∀ e ∈ m, c ∈ e.2 → e.1 ∈ srooms) →
      ∀ e ∈ disconnecting m srooms c, c ∉ e.2 := by
  induction srooms with
  | nil =>
    intro m c _ hsync e he hc
    exact absurd (hsync e he hc) (List.not_mem_nil _)
  | cons r rest ih =>
    intro m c hwf hsync
    rw [disconnecting_cons]
    apply ih
    · intro e he
      revert he
      split
      · intro he
        rcases mem_mapAdjust he with ⟨e0, he0, ⟨_, heq⟩ | ⟨_, heq⟩⟩
        · rw [heq]; exact (hwf e0 he0).erase c
        · rw [heq]; exact hwf e0 he0
      · intro he; exact hwf e he
    · intro e he hc
      revert he
      split
      · intro he
        rcases mem_mapAdjust he with ⟨e0, he0, ⟨hk, heq⟩ | ⟨hk, heq⟩⟩
        · rw [heq] at hc
          exact absurd hc (hwf e0 he0).not_mem_erase
        · rw [heq] at hc ⊢
          rcases List.mem_cons.1 (hsync e0 he0 hc) with h1 | h1
          · exact absurd h1 hk
          · exact h1
      · intro he
        rename_i hhas
        rcases List.mem_cons.1 (hsync e he hc) with h1 | h1
        · exact absurd (mapHas_iff.2 ⟨e, he, h1⟩) hhas
        · exact h1

/-- When no entry contains the id, the break-scan `disconnect` handler of
the second `app.js` variant changes nothing. -/
theorem disconnectBreak_of_memberFree {c : Nat} :
    ∀ {m : NMap}, (∀ e ∈ m, c ∉ e.2) → disconnectBreak m c = m := by
  intro m
  induction m with
  | nil => intro _; rfl
  | cons e rest ih =>
    intro h
    obtain ⟨room, clients⟩ := e
    have hc : c ∉ clients := h (room, clients) (List.mem_cons_self _ _)
    simp only [disconnectBreak, if_neg hc]
    rw [ih (fun e he => h e (List.mem_cons_of_mem _ he))]

/-- C3: After a connection's disconnect processing completes, no
registry entry contains its id. For the full-scan variants this is
`disconnectScan`; for the second `app.js` variant it is `disconnecting`
followed by the break-scan `disconnect`, and holds because a registry room
contains the id only if the socket joined it (`hsync`, maintained by
`joinRoom`, which adds to the registry and calls `socket.join` together),
so the `disconnecting` pass already visits every such room. Member sets of
reachable registries are `Nodup` (`hwf`), as JS `Set`s cannot hold
duplicates. -/
theorem C3_disconnect_removes_everywhere (m : NMap) (srooms : List Nat)
    (c : Nat) (hwf : ∀ e ∈ m, e.2.Nodup)
    (hsync : ∀ e ∈ m, c ∈ e.2 → e.1 ∈ srooms) :
    memberFree (disconnectScan m c) c = true ∧
    memberFree (disconnectFullB m srooms c) c = true := by
  constructor
  · exact memberFree_iff.2 (memberFree_disconnectScan hwf c)
  · rw [memberFree_iff]
    have h1 := disconnecting_removes srooms m c hwf hsync
    unfold disconnectFullB
    rw [disconnectBreak_of_memberFree h1]
    exact h1

/-- Witness for `C3_disconnect_removes_everywhere` at a concrete state:
socket 5 is a member of rooms 1 and 2 and has joined both. -/
theorem C3_disconnect_removes_everywhere_witness :
    memberFree (disconnectScan [(1, [5, 7]), (2, [5])] 5) 5 = true ∧
    memberFree (disconnectFullB [(1, [5, 7]), (2, [5])] [1, 2] 5) 5 = true :=
  C3_disconnect_removes_everywhere [(1, [5, 7]), (2, [5])] [1, 2] 5
    (by decide) (by decide)

/-! Section: C1: events missing `venta_id` -/

/-- C1, counterexample: The claim says every variant's handlers reject
an event missing `venta_id` before broadcast, but the cluster-adapter
variant (`part_000` lines 358–367) broadcasts with no validation at all: a
payload whose `venta_id` is absent is delivered to room member 7. -/
theorem C1_counterexample :
    handleSaleClusterAdapter [(1, [7])] { venta_id := .undef } 1 =
      [(7, { venta_id := .undef })] ∧
    handleCommentClusterAdapter [(1, [7])] { venta_id := .undef } 1 =
      [(7, { venta_id := .undef })] := by
  decide

/-- C1, amended: In every variant except the cluster-adapter one —
the explicit-room `part_000` handlers, the inferred-room `app.js` handlers
and the nested-listener handlers of the winston variants — a payload whose
`venta_id` field is missing is rejected and delivered to no one, whatever
the adapter, room and listener state. -/
theorem C1_missing_venta_id_not_broadcast (adapter : NMap)
    (srooms listeners : List Nat) (room : Nat) (d : Payload)
    (h : d.venta_id = JsVal.undef) :
    handleSaleExplicit adapter d = [] ∧
    handleCommentExplicit adapter d = [] ∧
    handleSaleInferred adapter srooms d = [] ∧
    handleCommentInferred adapter srooms d = [] ∧
    handleSaleNested adapter room d = [] ∧
    handleCommentNested adapter room d = [] ∧
    dispatchSaleNested listeners d = [] := by
  have ht : truthy d.venta_id = false := by rw [h]; rfl
  refine ⟨?_, ?_, ?_, ?_, ?_, ?_, ?_⟩
  · simp [handleSaleExplicit, ht]
  · simp [handleCommentExplicit, ht]
  · cases srooms <;> simp [handleSaleInferred, ht]
  · cases srooms <;> simp [handleCommentInferred, ht]
  · simp [handleSaleNested, saleListenerNested, ht]
  · simp [handleCommentNested, commentListenerNested, ht]
  · simp [dispatchSaleNested, saleListenerNested, ht]

/-- Witness for `C1_missing_venta_id_not_broadcast` at a concrete payload
missing `venta_id` (but carrying the other fields). -/
theorem C1_missing_venta_id_not_broadcast_witness :
    handleSaleExplicit [(1, [7])]
      { estado_nuevo := .num 3, comentario := .str "x", room := some 1 } = [] ∧
    handleCommentExplicit [(1, [7])]
      { estado_nuevo := .num 3, comentario := .str "x", room := some 1 } = [] ∧
    handleSaleInferred [(1, [7])] [1]
      { estado_nuevo := .num 3, comentario := .str "x", room := some 1 } = [] ∧
    handleCommentInferred [(1, [7])] [1]
      { estado_nuevo := .num 3, comentario := .str "x", room := some 1 } = [] ∧
    handleSaleNested [(1, [7])] 1
      { estado_nuevo := .num 3, comentario := .str "x", room := some 1 } = [] ∧
    handleCommentNested [(1, [7])] 1
      { estado_nuevo := .num 3, comentario := .str "x", room := some 1 } = [] ∧
    dispatchSaleNested [1, 2]
      { estado_nuevo := .num 3, comentario := .str "x", room := some 1 } = [] :=
  C1_missing_venta_id_not_broadcast [(1, [7])] [1] [1, 2] 1
    { estado_nuevo := .num 3, comentario := .str "x", room := some 1 } rfl

/-! Section: C4: whole-room broadcast of a valid sale update -/

/-- C4: A valid `actualizarEstadoVenta` event routed to a room whose
member set is `M` is delivered, unmodified, to exactly the connections of
`M` — including the sender when the sender is a member — and to no
connection outside it. Shown for the inferred-room `app.js` handler and
for a nested winston listener whose captured room has member set `M`. -/
theorem C4_broadcast_whole_room (adapter : NMap) (r : Nat) (rest : List Nat)
    (M : List Nat) (d : Payload) (sender : Nat)
    (hM : mapGet adapter r = some M)
    (h1 : truthy d.venta_id = true) (h2 : truthy d.estado_nuevo = true)
    (hs : sender ∈ M) :
    handleSaleInferred adapter (r :: rest) d = M.map (fun c => (c, d)) ∧
    handleSaleNested adapter r d = M.map (fun c => (c, d)) ∧
    (sender, d) ∈ handleSaleInferred adapter (r :: rest) d ∧
    (handleSaleInferred adapter (r :: rest) d).all
      (fun cp => decide (cp.1 ∈ M) && decide (cp.2 = d)) = true := by
  have heq : handleSaleInferred adapter (r :: rest) d =
      M.map (fun c => (c, d)) := by
    simp [handleSaleInferred, h1, h2, ioTo, hM]
  refine ⟨heq, ?_, ?_, ?_⟩
  · simp [handleSaleNested, saleListenerNested, h1, h2, ioTo, hM]
  · rw [heq]; exact List.mem_map.2 ⟨sender, hs, rfl⟩
  · rw [heq, List.all_eq_true]
    intro cp hcp
    rcases List.mem_map.1 hcp with ⟨c, hc, rfl⟩
    simp [hc]

/-- Witness for `C4_broadcast_whole_room`: room 7 holds members 3, 4, 5;
member 3 sends `{venta_id: 42, estado_nuevo: "shipped"}`. -/
theorem C4_broadcast_whole_room_witness :
    handleSaleInferred [(7, [3, 4, 5])] [7]
        { venta_id := .num 42, estado_nuevo := .str "shipped" } =
      [3, 4, 5].map
        (fun c => (c, { venta_id := .num 42, estado_nuevo := .str "shipped" })) ∧
    handleSaleNested [(7, [3, 4, 5])] 7
        { venta_id := .num 42, estado_nuevo := .str "shipped" } =
      [3, 4, 5].map
        (fun c => (c, { venta_id := .num 42, estado_nuevo := .str "shipped" })) ∧
    ((3 : Nat), ({ venta_id := .num 42, estado_nuevo := .str "shipped" } : Payload)) ∈
      handleSaleInferred [(7, [3, 4, 5])] [7]
        { venta_id := .num 42, estado_nuevo := .str "shipped" } ∧
    (handleSaleInferred [(7, [3, 4, 5])] [7]
        { venta_id := .num 42, estado_nuevo := .str "shipped" }).all
      (fun cp => decide (cp.1 ∈ [3, 4, 5]) &&
        decide (cp.2 = { venta_id := .num 42, estado_nuevo := .str "shipped" })) =
      true :=
  C4_broadcast_whole_room [(7, [3, 4, 5])] 7 [] [3, 4, 5]
    { venta_id := .num 42, estado_nuevo := .str "shipped" } 3
    (by decide) (by decide) (by decide) (by decide)

/-! Section: C5: `nuevoComentario` validation -/

/-- C5, counterexample: The claim says a `nuevoComentario` payload
carrying `venta_id` and a comment but no `estado_nuevo` is accepted and
broadcast, yet the winston-cluster listeners (`app.js` lines 190–200,
`part_001` lines 117–127) validate `venta_id` and `estado_nuevo`, so they
reject exactly that payload: with room 1 holding member 4, nothing is
delivered. -/
theorem C5_counterexample :
    handleCommentNested [(1, [4])] 1
      { venta_id := .num 7, comentario := .str "hola" } = [] := by
  decide

/-- C5, amended: Only the second `app.js` variant validates
`nuevoComentario` by `venta_id` and `comentario`: it accepts a payload with
`venta_id` and a comment but no `estado_nuevo` (broadcasting it to the
inferred room's members) and rejects one missing the comment. The
winston-cluster and `part_000` handlers instead require `venta_id` and
`estado_nuevo`, so they reject a comment-carrying payload that lacks
`estado_nuevo`. -/
theorem C5_comment_validation (adapter : NMap) (r : Nat) (rest : List Nat)
    (M : List Nat) (dB dMiss dW : Payload)
    (hM : mapGet adapter r = some M)
    (hB1 : truthy dB.venta_id = true) (hB2 : truthy dB.comentario = true)
    (hMiss : dMiss.comentario = JsVal.undef)
    (hW : dW.estado_nuevo = JsVal.undef) :
    handleCommentInferred adapter (r :: rest) dB = M.map (fun c => (c, dB)) ∧
    handleCommentInferred adapter (r :: rest) dMiss = [] ∧
    handleCommentNested adapter r dW = [] ∧
    handleCommentExplicit adapter dW = [] := by
  have htMiss : truthy dMiss.comentario = false := by rw [hMiss]; rfl
  have htW : truthy dW.estado_nuevo = false := by rw [hW]; rfl
  refine ⟨?_, ?_, ?_, ?_⟩
  · simp [handleCommentInferred, hB1, hB2, ioTo, hM]
  · simp [handleCommentInferred, htMiss]
  · simp [handleCommentNested, commentListenerNested, htW]
  · simp [handleCommentExplicit, htW]

/-- Witness for `C5_comment_validation`: `dB = dW` carries `venta_id` and a
comment but no `estado_nuevo`; `dMiss` carries no comment. -/
theorem C5_comment_validation_witness :
    handleCommentInferred [(1, [4])] [1]
        { venta_id := .num 7, comentario := .str "hola" } =
      [4].map (fun c => (c, { venta_id := .num 7, comentario := .str "hola" })) ∧
    handleCommentInferred [(1, [4])] [1] { venta_id := .num 7 } = [] ∧
    handleCommentNested [(1, [4])] 1
      { venta_id := .num 7, comentario := .str "hola" } = [] ∧
    handleCommentExplicit [(1, [4])]
      { venta_id := .num 7, comentario := .str "hola" } = [] :=
  C5_comment_validation [(1, [4])] 1 [] [4]
    { venta_id := .num 7, comentario := .str "hola" }
    { venta_id := .num 7 }
    { venta_id := .num 7, comentario := .str "hola" }
    (by decide) (by decide) (by decide) rfl rfl

/-! Section: C7: target-room resolution -/

/-- C7, counterexample: The claim says an explicit room on the event
takes precedence over inference, but the inferred-room `app.js` handler
ignores the payload's `room` field entirely: a sender in room 1 sending a
valid payload whose explicit `room` is 2 reaches room 1's member 7, while
delivery to the explicit room 2 would have reached member 8. -/
theorem C7_counterexample :
    handleSaleInferred [(1, [7]), (2, [8])] [1]
        { venta_id := .num 1, estado_nuevo := .num 2, room := some 2 } =
      [(7, { venta_id := .num 1, estado_nuevo := .num 2, room := some 2 })] ∧
    ioTo [(1, [7]), (2, [8])]
        ({ venta_id := .num 1, estado_nuevo := .num 2, room := some 2 } :
          Payload).room
        { venta_id := .num 1, estado_nuevo := .num 2, room := some 2 } =
      [(8, { venta_id := .num 1, estado_nuevo := .num 2, room := some 2 })] := by
  decide

/-- C7, amended: No variant implements the explicit-else-inferred
fallback; each router has exactly one path. The inferred-room `app.js`
handler drops the event (nothing broadcast) when the sender occupies no
room, and its recipient set never depends on the payload's explicit `room`
field; the explicit-room `part_000` handler sends a valid payload to the
members of its explicit `room` field, never consulting the sender's
occupancy. -/
theorem C7_room_resolution (adapter : NMap) (srooms : List Nat)
    (d dv : Payload) (r' : Nat)
    (hv1 : truthy dv.venta_id = true) (hv2 : truthy dv.estado_nuevo = true)
    (hvr : dv.room = some r') :
    handleSaleInferred adapter [] d = [] ∧
    (handleSaleInferred adapter srooms { d with room := some r' }).map
        Prod.fst =
      (handleSaleInferred adapter srooms d).map Prod.fst ∧
    handleSaleExplicit adapter dv =
      ((mapGet adapter r').getD []).map (fun c => (c, dv)) := by
  refine ⟨rfl, ?_, ?_⟩
  · cases srooms with
    | nil => rfl
    | cons r rest =>
      simp only [handleSaleInferred, List.head?_cons]
      by_cases h1 : truthy d.venta_id && truthy d.estado_nuevo
      · rw [if_pos h1, if_pos h1]
        simp [ioTo]
      · rw [if_neg h1, if_neg h1]
  · simp [handleSaleExplicit, hv1, hv2, hvr, ioTo]

/-- Witness for `C7_room_resolution` at concrete states: an empty occupancy
drops the event; the `room` field does not change the recipients of the
inferred router; the explicit router delivers to its `room` field's
members. -/
theorem C7_room_resolution_witness :
    handleSaleInferred [(1, [7]), (2, [8])] []
      { venta_id := .num 1, estado_nuevo := .num 2 } = [] ∧
    (handleSaleInferred [(1, [7]), (2, [8])] [1]
        { venta_id := .num 1, estado_nuevo := .num 2, room := some 2 }).map
        Prod.fst =
      (handleSaleInferred [(1, [7]), (2, [8])] [1]
        { venta_id := .num 1, estado_nuevo := .num 2 }).map Prod.fst ∧
    handleSaleExplicit [(1, [7]), (2, [8])]
        { venta_id := .num 1, estado_nuevo := .num 2, room := some 2 } =
      ((mapGet [(1, [7]), (2, [8])] 2).getD []).map
        (fun c =>
          (c, { venta_id := .num 1, estado_nuevo := .num 2, room := some 2 })) :=
  C7_room_resolution [(1, [7]), (2, [8])] [1]
    { venta_id := .num 1, estado_nuevo := .num 2 }
    { venta_id := .num 1, estado_nuevo := .num 2, room := some 2 } 2
    (by decide) (by decide) rfl

/-! Section: C6: idempotence of `joinRoom` -/

theorem mapHas_mapAdjust (m : NMap) (k k' : Nat) (f : List Nat → List Nat) :
    mapHas (mapAdjust m k f) k' = mapHas m k' := by
  simp only [mapHas, mapAdjust, List.any_map]
  congr 1
  funext e
  by_cases h : e.1 = k <;> simp [h]

theorem mapAdjust_mapAdjust (m : NMap) (k : Nat)
    (f g : List Nat → List Nat) :
    mapAdjust (mapAdjust m k f) k g = mapAdjust m k (fun s => g (f s)) := by
  simp only [mapAdjust, List.map_map]
  congr 1
  funext e
  by_cases h : e.1 = k <;> simp [h]

theorem setAdd_setAdd (s : List Nat) (x : Nat) :
    setAdd (setAdd s x) x = setAdd s x := by
  unfold setAdd
  by_cases h : x ∈ s <;> simp [h]

theorem mapGet_mapAdjust (m : NMap) (k : Nat) (f : List Nat → List Nat) :
    mapGet (mapAdjust m k f) k = (mapGet m k).map f := by
  induction m with
  | nil => rfl
  | cons e rest ih =>
    by_cases h : e.1 = k
    · simp [mapGet, mapAdjust, List.find?_cons_of_pos, h]
    · simp only [mapGet, mapAdjust, List.map_cons] at *
      rw [if_neg (by simpa using h), List.find?_cons_of_neg _ (by simpa using h),
        List.find?_cons_of_neg _ (by simpa using h)]
      exact ih

/-- After `joinRoom`, the room is present. -/
theorem mapHas_joinRoom (m : NMap) (r c : Nat) :
    mapHas (joinRoom m r c) r = true := by
  rw [joinRoom_def, mapHas_mapAdjust]
  split
  · assumption
  · unfold mapSet
    rw [if_neg (by assumption)]
    simp [mapHas, List.any_append]

/-- The member set `joinRoom` leaves under `r` is `setAdd` of the previous
one (`[]` when the room was just created). -/
theorem mapGet_joinRoom (m : NMap) (r c : Nat) :
    mapGet (joinRoom m r c) r =
      some (setAdd ((mapGet m r).getD []) c) := by
  rw [joinRoom_def, mapGet_mapAdjust]
  by_cases h : mapHas m r = true
  · rw [if_pos h]
    rcases hfind : m.find? (fun e => e.1 == r) with _ | e
    · rw [mapHas_iff] at h
      rcases h with ⟨e, he, hk⟩
      have := List.find?_eq_none.1 hfind e he
      simp [hk] at this
    · simp [mapGet, hfind]
  · rw [if_neg h]
    have hget : mapGet (mapSet m r []) r = some [] := by
      unfold mapSet
      rw [if_neg h]
      unfold mapGet
      rw [List.find?_append]
      have hnone : m.find? (fun e => e.1 == r) = none := by
        rw [List.find?_eq_none]
        intro e he
        by_contra hc
        exact h (mapHas_iff.2 ⟨e, he, by simpa using hc⟩)
      simp [hnone]
    rw [hget]
    have hnone : mapGet m r = none := by
      unfold mapGet
      have : m.find? (fun e => e.1 == r) = none := by
        rw [List.find?_eq_none]
        intro e he
        by_contra hc
        exact h (mapHas_iff.2 ⟨e, he, by simpa using hc⟩)
      simp [this]
    rw [hnone]
    simp

/-- The set read back from a map with `Nodup` member sets is `Nodup`. -/
theorem mapGet_nodup {m : NMap} (hwf : ∀ e ∈ m, e.2.Nodup) (k : Nat) :
    ((mapGet m k).getD []).Nodup := by
  rcases hfind : m.find? (fun e => e.1 == k) with _ | e
  · simp [mapGet, hfind]
  · have := hwf e (List.mem_of_find?_eq_some hfind)
    simpa [mapGet, hfind] using this

theorem setAdd_count (s : List Nat) (c : Nat) (h : s.Nodup) :
    (setAdd s c).count c = 1 := by
  unfold setAdd
  by_cases hc : c ∈ s
  · rw [if_pos hc]
    exact List.count_eq_one_of_mem h hc
  · rw [if_neg hc, List.count_append c s [c],
      List.count_eq_zero_of_not_mem hc]
    simp

/-- C6: `joinRoom` is idempotent with set semantics on any registry
whose member sets are `Nodup` (as JS `Set`s are): a second
`joinRoom(r, c)` leaves the registry unchanged, the room's member set
holds `c` exactly once, and its cardinality is unchanged by the second
call. -/
theorem C6_joinRoom_idempotent (m : NMap) (r c : Nat)
    (hwf : ∀ e ∈ m, e.2.Nodup) :
    joinRoom (joinRoom m r c) r c = joinRoom m r c ∧
    ((mapGet (joinRoom m r c) r).getD []).count c = 1 ∧
    ((mapGet (joinRoom (joinRoom m r c) r c) r).getD []).length =
      ((mapGet (joinRoom m r c) r).getD []).length := by
  have hidem : joinRoom (joinRoom m r c) r c = joinRoom m r c := by
    have h1 : joinRoom (joinRoom m r c) r c =
        mapAdjust (joinRoom m r c) r (fun s => setAdd s c) := by
      rw [joinRoom_def (joinRoom m r c) r c, if_pos (mapHas_joinRoom m r c)]
    rw [h1, joinRoom_def m r c, mapAdjust_mapAdjust]
    congr 1
    funext s
    exact setAdd_setAdd s c
  refine ⟨hidem, ?_, by rw [hidem]⟩
  rw [mapGet_joinRoom]
  exact setAdd_count _ c (mapGet_nodup hwf r)

/-- Witness for `C6_joinRoom_idempotent` at a concrete registry already
holding another room. -/
theorem C6_joinRoom_idempotent_witness :
    joinRoom (joinRoom [(2, [9])] 1 5) 1 5 = joinRoom [(2, [9])] 1 5 ∧
    ((mapGet (joinRoom [(2, [9])] 1 5) 1).getD []).count 5 = 1 ∧
    ((mapGet (joinRoom (joinRoom [(2, [9])] 1 5) 1 5) 1).getD []).length =
      ((mapGet (joinRoom [(2, [9])] 1 5) 1).getD []).length :=
  C6_joinRoom_idempotent [(2, [9])] 1 5 (by decide)

/-! Section: C8: user-index empty-entry eviction (cluster-adapter variant) -/

theorem registerUser_eq_joinRoom (ui : NMap) (u sid : Nat) :
    registerUser ui u sid = joinRoom ui u sid := rfl

theorem keys_mapAdjust (m : NMap) (k : Nat) (f : List Nat → List Nat) :
    (mapAdjust m k f).map Prod.fst = m.map Prod.fst := by
  simp only [mapAdjust, List.map_map]
  congr 1
  funext e
  by_cases h : e.1 = k <;> simp [h]

theorem keys_joinRoom (m : NMap) (r c : Nat) :
    (joinRoom m r c).map Prod.fst =
      if mapHas m r then m.map Prod.fst else m.map Prod.fst ++ [r] := by
  rw [joinRoom_def, keys_mapAdjust]
  split
  · rfl
  · unfold mapSet
    rw [if_neg (by assumption)]
    simp

/-- In a map with unique keys, `get` returns the set of any entry holding
that key. -/
theorem mapGet_eq_of_mem {m : NMap} (hkeys : (m.map Prod.fst).Nodup)
    {k : Nat} {s : List Nat} (h : (k, s) ∈ m) : mapGet m k = some s := by
  induction m with
  | nil => cases h
  | cons e rest ih =>
    simp only [List.map_cons, List.nodup_cons] at hkeys
    rcases List.mem_cons.1 h with h | h
    · rw [← h]
      simp [mapGet, List.find?_cons_of_pos]
    · have hmem : k ∈ rest.map Prod.fst := List.mem_map.2 ⟨(k, s), h, rfl⟩
      have hne : ¬e.1 = k := fun hk => hkeys.1 (by rw [hk]; exact hmem)
      unfold mapGet
      rw [List.find?_cons_of_neg _ (by simpa using hne)]
      exact ih hkeys.2 h

theorem mapHas_of_mapGet {m : NMap} {k : Nat} {s : List Nat}
    (h : mapGet m k = some s) : mapHas m k = true := by
  unfold mapGet at h
  rcases hfind : m.find? (fun e => e.1 == k) with _ | e
  · rw [hfind] at h; cases h
  · have hp := List.find?_some hfind
    exact mapHas_iff.2 ⟨e, List.mem_of_find?_eq_some hfind, by simpa using hp⟩

theorem mapHas_mapDelete (m : NMap) (k : Nat) :
    mapHas (mapDelete m k) k = false := by
  rw [Bool.eq_false_iff]
  intro h
  rcases mapHas_iff.1 h with ⟨e, he, hk⟩
  have := (List.mem_filter.1 he).2
  simp [hk] at this

theorem good_registerUser {ui : NMap} (h : GoodIndex ui) (u sid : Nat) :
    GoodIndex (registerUser ui u sid) := by
  obtain ⟨hkeys, hne⟩ := h
  rw [registerUser_eq_joinRoom]
  constructor
  · rw [keys_joinRoom]
    split
    · exact hkeys
    · rename_i hhas
      have hfresh : u ∉ ui.map Prod.fst := by
        intro hu
        rcases List.mem_map.1 hu with ⟨e, he, hk⟩
        exact hhas (mapHas_iff.2 ⟨e, he, hk⟩)
      simp [List.nodup_append, hkeys, hfresh]
  · exact noEmpty_joinRoom hne u sid

theorem good_unregisterUser {ui : NMap} (h : GoodIndex ui) (u sid : Nat) :
    GoodIndex (unregisterUser ui u sid) := by
  obtain ⟨hkeys, hne⟩ := h
  have hkeys' : ((mapAdjust ui u fun s => s.erase sid).map Prod.fst).Nodup := by
    rw [keys_mapAdjust]; exact hkeys
  unfold unregisterUser
  split
  · split
    · constructor
      · have hsub : (mapDelete (mapAdjust ui u fun s => s.erase sid) u).Sublist
            (mapAdjust ui u fun s => s.erase sid) := List.filter_sublist _
        exact List.Nodup.sublist (List.Sublist.map Prod.fst hsub) hkeys'
      · intro e he
        have hf := List.mem_filter.1 he
        rcases mem_mapAdjust hf.1 with ⟨e0, he0, ⟨hk, heq⟩ | ⟨_, heq⟩⟩
        · exfalso
          have := hf.2
          rw [heq] at this
          simp [hk] at this
        · rw [heq]; exact hne e0 he0
    · rename_i hnotEmpty
      constructor
      · exact hkeys'
      · intro e he
        rcases mem_mapAdjust he with ⟨e0, he0, ⟨hk, heq⟩ | ⟨_, heq⟩⟩
        · have hget : mapGet (mapAdjust ui u fun s => s.erase sid) u =
              some (e0.2.erase sid) := by
            apply mapGet_eq_of_mem hkeys'
            have heu : e = (u, e0.2.erase sid) := by rw [heq, hk]
            rw [← heu]
            exact he
          rw [hget] at hnotEmpty
          rw [heq]
          simpa [List.isEmpty_iff] using hnotEmpty
        · rw [heq]; exact hne e0 he0
  · exact ⟨hkeys, hne⟩

theorem good_runUOps_aux (ops : List UOp) :
    ∀ ui, GoodIndex ui → GoodIndex (ops.foldl applyUOp ui) := by
  induction ops with
  | nil => intro ui h; simpa using h
  | cons op rest ih =>
    intro ui h
    simp only [List.foldl_cons]
    apply ih
    cases op with
    | conn uid sid =>
      cases uid with
      | none => exact h
      | some u => exact good_registerUser h u sid
    | disc uid sid =>
      cases uid with
      | none => exact h
      | some u => exact good_unregisterUser h u sid

/-- C8: For every sequence of connection/disconnection operations of
the cluster-adapter variant, the user index never holds an entry with an
empty socket set; moreover the eviction is immediate: when a user's set is
exactly the disconnecting socket, the disconnect operation itself deletes
the user's entry. -/
theorem C8_user_index_never_empty (ops : List UOp) (u sid : Nat) :
    noEmptyEntries (runUOps ops) = true ∧
    (mapGet (runUOps ops) u = some [sid] →
      mapHas (unregisterUser (runUOps ops) u sid) u = false) := by
  have hgood : GoodIndex (runUOps ops) :=
    good_runUOps_aux ops [] ⟨List.nodup_nil, by simp⟩
  constructor
  · rw [noEmptyEntries_iff]; exact hgood.2
  · intro hget
    unfold unregisterUser
    rw [if_pos (mapHas_of_mapGet hget)]
    have hadj : mapGet (mapAdjust (runUOps ops) u fun s => s.erase sid) u =
        some ([sid].erase sid) := by
      rw [mapGet_mapAdjust, hget]
      rfl
    rw [if_pos (by rw [hadj]; simp)]
    exact mapHas_mapDelete _ u

/-- Witness for `C8_user_index_never_empty`: user 3 connects one socket 9;
its disconnect must delete user 3's entry. -/
theorem C8_user_index_never_empty_witness :
    noEmptyEntries (runUOps [.conn (some 3) 9]) = true ∧
    mapHas (unregisterUser (runUOps [.conn (some 3) 9]) 3 9) 3 = false :=
  ⟨(C8_user_index_never_empty [.conn (some 3) 9] 3 9).1,
    (C8_user_index_never_empty [.conn (some 3) 9] 3 9).2 (by decide)⟩

/-- C9: In the clustered winston variants, every connection whose
handshake query supplies a `userId` makes the handler throw `TypeError`
at the `WeakMap` registration, so the handler aborts before installing
the `joinRoom` and `disconnect` listeners and user-index tracking never
succeeds; an anonymous connection, by contrast, completes and installs
both listeners with the weak map untouched. -/
theorem C9_weakmap_typeerror (sid : Nat) (u : String) (st : ConnState) :
    connectionClustered sid (some u) st = .error "TypeError" ∧
    connectionClustered sid none st =
      .ok { st with joinRoomInstalled := true, disconnectInstalled := true } := by
  constructor
  · rfl
  · rfl

/-! Section: C10: listener accumulation in the nested-handler variants -/

theorem joinAllNested_listeners (rs : List Nat) :
    ∀ (st : NestedConnState) (sid : Nat),
      (joinAllNested st rs sid).listeners = st.listeners ++ rs := by
  induction rs with
  | nil => intro st sid; simp [joinAllNested]
  | cons r rest ih =>
    intro st sid
    unfold joinAllNested at ih ⊢
    rw [List.foldl_cons, ih]
    simp [joinRoomNested]

theorem dispatchSaleNested_valid {d : Payload}
    (h1 : truthy d.venta_id = true) (h2 : truthy d.estado_nuevo = true) :
    ∀ listeners : List Nat,
      dispatchSaleNested listeners d = listeners.map (fun r => (r, d)) := by
  intro listeners
  induction listeners with
  | nil => rfl
  | cons r rest ih =>
    simp only [dispatchSaleNested, List.filterMap_cons] at ih ⊢
    rw [ih]
    simp [saleListenerNested, h1, h2]

/-- C10: In the nested-handler variants, a connection that has issued
`joinRoom` for the `k` distinct rooms of `rs` has `k`
`actualizarEstadoVenta` listeners installed (one per join, each with its
`room` closure variable fixed at join time); a single valid inbound event
is then processed `k` times, producing exactly one broadcast to each of
the `k` joined rooms — not one broadcast to a single current room. -/
theorem C10_duplicate_listeners (rs : List Nat) (sid : Nat) (d : Payload)
    (hnd : rs.Nodup)
    (h1 : truthy d.venta_id = true) (h2 : truthy d.estado_nuevo = true) :
    (joinAllNested {} rs sid).listeners = rs ∧
    (joinAllNested {} rs sid).listeners.length = rs.length ∧
    dispatchSaleNested (joinAllNested {} rs sid).listeners d =
      rs.map (fun r => (r, d)) ∧
    (∀ r ∈ rs,
      ((dispatchSaleNested (joinAllNested {} rs sid).listeners d).map
        Prod.fst).count r = 1) := by
  have hl : (joinAllNested {} rs sid).listeners = rs := by
    rw [joinAllNested_listeners]
    rfl
  refine ⟨hl, by rw [hl], ?_, ?_⟩
  · rw [hl]
    exact dispatchSaleNested_valid h1 h2 rs
  · intro r hr
    rw [hl, dispatchSaleNested_valid h1 h2 rs]
    have hmaps : (rs.map (fun r => (r, d))).map Prod.fst = rs := by
      rw [List.map_map]
      exact List.map_id rs
    rw [hmaps]
    exact List.count_eq_one_of_mem hnd hr

/-- Witness for `C10_duplicate_listeners`: two joins install two listeners;
one valid event is broadcast once to each of rooms 1 and 2. -/
theorem C10_duplicate_listeners_witness :
    (joinAllNested {} [1, 2] 6).listeners = [1, 2] ∧
    (joinAllNested {} [1, 2] 6).listeners.length = [1, 2].length ∧
    dispatchSaleNested (joinAllNested {} [1, 2] 6).listeners
        { venta_id := .num 42, estado_nuevo := .str "ok" } =
      [1, 2].map (fun r => (r, { venta_id := .num 42, estado_nuevo := .str "ok" })) ∧
    (∀ r ∈ [1, 2],
      ((dispatchSaleNested (joinAllNested {} [1, 2] 6).listeners
        { venta_id := .num 42, estado_nuevo := .str "ok" }).map
        Prod.fst).count r = 1) :=
  C10_duplicate_listeners [1, 2] 6
    { venta_id := .num 42, estado_nuevo := .str "ok" }
    (by decide) (by decide) (by decide)

end VentasWs
